import Mathlib

/-!
Shallow embedding of the ROSOMAXA adaptive population manager
(`rosomaxa/src/population/rosomaxa.rs`) together with the collaborator
components it uses (elitism archive, GSOM network, heuristic statistics,
random draws).

Modelling conventions:
* Rust `f64` values are modelled as rationals (`ℚ`); the transcendental
  operations (`exp`, `ln`, `sqrt`) cannot be computed on `ℚ` and are
  abstracted into a `RealFuns` bundle that every development quantifies over.
* Stateful RNG calls are modelled by explicit draw arguments: a raw natural
  number is mapped into a requested range exactly like a ranged integer draw
  (`lo + raw % (hi - lo + 1)`), a coin flip is a `Bool` argument, and
  Fisher-Yates shuffles consume an explicit list of raw draws.
* `deep_copy` of a solution is the identity on values, so "deep-copy into the
  elite archive" appears as inserting the individual itself.
* Collaborator components whose sources are not part of the checked tree
  (elitism archive, GSOM network, `relative_distance`) are modelled from the
  specification; each such definition carries a doc comment starting with
  `Modelled from the spec:`.
-/

/-- Rust `f64::round`: rounds half away from zero. -/
def rustRound (x : ℚ) : ℤ := if 0 ≤ x then ⌊x + 1/2⌋ else ⌈x - 1/2⌉

/-- Rust `.round() as usize`: round half away from zero, then saturate negative
values to zero. -/
def rustRoundToNat (x : ℚ) : ℕ := (rustRound x).toNat

/-- Rust `as usize` cast of a finite `f64`: truncation toward zero, saturating
at zero on negative inputs (for `x ≥ 0` this is `⌊x⌋`). -/
def rustToUsize (x : ℚ) : ℕ := ⌊x⌋.toNat

/-- Rust `f64::clamp(lo, hi)`: `min hi (max lo x)`. -/
def rustClamp (x lo hi : ℚ) : ℚ := min (max x lo) hi

/-- Ordering of two finite floats (`rosomaxa::utils::compare_floats`),
modelled as the total order on `ℚ`. -/
def compare_floats (a b : ℚ) : Ordering :=
  if a < b then Ordering.lt else if a = b then Ordering.eq else Ordering.gt

/-- A ranged integer draw `uniform_int(lo, hi)` derived from a raw RNG value:
`lo + raw % (hi - lo + 1)`.  For `lo ≤ hi` the result always lies in
`[lo, hi]`, which models the contract of `Random::uniform_int`. -/
def uniformInt (lo hi : ℤ) (raw : ℕ) : ℤ := lo + ((raw % (hi + 1 - lo).toNat : ℕ) : ℤ)

/-- Abstract stand-ins for the transcendental `f64` operations used by the
source (`E.powf`, `ln`, `sqrt`).  All general theorems quantify over this
bundle; concrete witnesses instantiate it with simple computable functions. -/
structure RealFuns where
  exp : ℚ → ℚ
  ln : ℚ → ℚ
  sqrt : ℚ → ℚ

/-- Machine epsilon of `f64`, used as the `ε` of `relative_distance`. -/
def f64Eps : ℚ := 1 / 2 ^ 52

/-- Modelled from the spec: `relative_distance(a, b)` of
`rosomaxa/src/algorithms/math` (not under the checked sources).  Per
component `d_i = |a_i − b_i| / max(|a_i|, |b_i|, ε)`; the result is
`sqrt (Σ d_i²)` over the matched components, with `sqrt` abstracted. -/
def relativeDistance (sq : ℚ → ℚ) (a b : List ℚ) : ℚ :=
  sq ((a.zip b).foldl
    (fun acc p => acc + (|p.1 - p.2| / max |p.1| (max |p.2| f64Eps)) ^ 2) 0)

/-- Stable insertion of `x` into a list sorted by `cmp` (best first): `x` is
placed before the first element it compares `lt` against. -/
def insertSortedBy {α : Type} (cmp : α → α → Ordering) (x : α) : List α → List α
  | [] => [x]
  | y :: ys =>
    if cmp x y = Ordering.lt then x :: y :: ys else y :: insertSortedBy cmp x ys

/-- Stable sort by an `Ordering`-valued comparator (models Rust's stable
`sort_by`): left fold of sorted insertion. -/
def sortedBy {α : Type} (cmp : α → α → Ordering) (l : List α) : List α :=
  l.foldl (fun acc x => insertSortedBy cmp x acc) []

/-- Modelled from the spec: a Fisher-Yates style permutation of a list driven
by a list of raw RNG draws.  Each step picks the element at index
`draw % length` and locks it at the front of the remaining output. -/
def fyPermute {α : Type} : List ℕ → List α → List α
  | _, [] => []
  | [], l => l
  | d :: ds, x :: xs =>
    let l := x :: xs
    let i := d % l.length
    l.getD i x :: fyPermute ds (l.eraseIdx i)

/-- Modelled from the spec: partial shuffle used by the coordinate refill —
Fisher-Yates on the first `amount` positions, the remaining positions are
left untouched. -/
def fyShufflePart {α : Type} (draws : List ℕ) (l : List α) (amount : ℕ) : List α :=
  fyPermute draws (l.take amount) ++ l.drop amount

/-- Search speed reported by the driver (`HeuristicSpeed`). -/
inductive HeuristicSpeed where
  | Moderate : HeuristicSpeed
  | Slow (ratio : ℚ) : HeuristicSpeed

/-- Driver-supplied generation statistics (`HeuristicStatistics`); the four
fields consumed by the population manager. -/
structure HeuristicStatistics where
  generation : ℕ
  termination_estimate : ℚ
  improvement_1000_ratio : ℚ
  speed : HeuristicSpeed

/-- Modelled from the spec: the bounded elitism archive of
`rosomaxa/src/population/elitism.rs` (not under the checked sources).
Members are kept sorted best-first, so the rank of a member is its index. -/
structure Elitism (S : Type) where
  order : S → S → Ordering
  maxSize : ℕ
  selectionSize : ℕ
  individuals : List S

namespace Elitism

/-- Modelled from the spec: `Elitism::new` creates an empty archive with
capacity `maxSize` and selection size `selectionSize`. -/
def new {S : Type} (order : S → S → Ordering) (maxSize selectionSize : ℕ) : Elitism S :=
  { order := order, maxSize := maxSize, selectionSize := selectionSize, individuals := [] }

/-- Number of archive members (`Elitism::size`). -/
def size {S : Type} (e : Elitism S) : ℕ := e.individuals.length

/-- Modelled from the spec: `select()` yields up to `selectionSize` members,
best rank first. -/
def select {S : Type} (e : Elitism S) : List S := e.individuals.take e.selectionSize

/-- Modelled from the spec: `ranked()` yields `(individual, ranked)` pairs,
best first, with 0-based contiguous ranks. -/
def ranked {S : Type} (e : Elitism S) : List (S × ℕ) :=
  e.individuals.enum.map (fun p => (p.2, p.1))

/-- Modelled from the spec: insertion policy of the elitism archive.  Reject a
candidate strictly dominated by an existing member; otherwise evict the
members the candidate strictly dominates, insert the candidate at its rank,
and truncate to capacity.  The returned flag records an improvement: the
candidate became the rank-0 member or displaced an existing member. -/
def add {S : Type} (e : Elitism S) (s : S) : Elitism S × Bool :=
  if e.individuals.any (fun m => e.order s m == Ordering.gt) then (e, false)
  else
    let survivors := e.individuals.filter (fun m => !(e.order s m == Ordering.lt))
    let inserted := insertSortedBy e.order s survivors
    let result := inserted.take e.maxSize
    let pos := (survivors.takeWhile (fun m => !(e.order s m == Ordering.lt))).length
    let improved : Bool :=
      (pos == 0) || (survivors.length < e.individuals.length) || (e.maxSize < inserted.length)
    ({ e with individuals := result }, improved)

/-- Modelled from the spec: `add_all` is logically repeated `add`, returning
whether any single add improved the archive. -/
def addAll {S : Type} (e : Elitism S) (l : List S) : Elitism S × Bool :=
  l.foldl (fun p s => let q := p.1.add s; (q.1, p.2 || q.2)) (e, false)

end Elitism

/-- Weight-bearing envelope routed into the GSOM (`IndividualInput`). -/
structure IndividualInput (S : Type) where
  weights : List ℚ
  individual : S

/-- `IndividualInput::new`: capture the solution's weight vector next to the
solution itself. -/
def IndividualInput.new {S : Type} (weightsOf : S → List ℚ) (s : S) : IndividualInput S :=
  { weights := weightsOf s, individual := s }

/-- Integer 2D coordinate addressing a GSOM node. -/
abbrev Coordinate := ℤ × ℤ

/-- Modelled from the spec: a GSOM node — weight vector, accumulated training
error, a node-local elitism archive and a last-hit generation stamp. -/
structure Node (S : Type) where
  weights : List ℚ
  error : ℚ
  storage : Elitism S
  lastHit : ℕ

/-- Modelled from the spec: a node's last-hit age, `current_time − last_hit`. -/
def Node.getLastHits {S : Type} (n : Node S) (time : ℕ) : ℕ := time - n.lastHit

/-- Modelled from the spec: the GSOM network of `rosomaxa/src/algorithms/gsom`
(not under the checked sources) — a sparse coordinate-addressed grid of nodes,
a generation clock and the training configuration.  The growth threshold
`GT = −d·ln(1 − spread_factor)` is transcendental, so the network carries it
as a precomputed field. -/
structure Network (S : Type) where
  nodes : List (Coordinate × Node S)
  time : ℕ
  growthThreshold : ℚ
  learningRate : ℚ
  distributionFactor : ℚ
  hasInitialError : Bool
  rebalanceMemory : ℕ
  storageTemplate : Elitism S

/-- Squared Euclidean distance over matched components of two weight vectors
(the BMU search only compares distances, so the square root is elided). -/
def sqDist (a b : List ℚ) : ℚ := (a.zip b).foldl (fun acc p => acc + (p.1 - p.2) ^ 2) 0

/-- Componentwise training update `w ← w + rate·(target − w)`. -/
def adjustWeights (w target : List ℚ) (rate : ℚ) : List ℚ :=
  (w.zip target).map (fun p => p.1 + rate * (p.2 - p.1))

/-- The four cardinal neighbor coordinates of a node. -/
def neighborsOf (c : Coordinate) : List Coordinate :=
  [(c.1 + 1, c.2), (c.1 - 1, c.2), (c.1, c.2 + 1), (c.1, c.2 - 1)]

namespace Network

/-- Number of nodes (`Network::size`). -/
def size {S : Type} (net : Network S) : ℕ := net.nodes.length

/-- The highest generation stamp seen (`Network::get_current_time`). -/
def getCurrentTime {S : Type} (net : Network S) : ℕ := net.time

/-- `Network::find`: the node at a coordinate, when present. -/
def find {S : Type} (net : Network S) (c : Coordinate) : Option (Node S) :=
  (net.nodes.find? (fun p => decide (p.1 = c))).map (fun p => p.2)

/-- Modelled from the spec: the best-matching unit — the node whose weight
vector minimizes (squared) Euclidean distance to the input weights; ties go to
the earlier node in iteration order. -/
def findBmu {S : Type} (net : Network S) (w : List ℚ) : Option (Coordinate × Node S) :=
  net.nodes.foldl
    (fun best p =>
      match best with
      | none => some p
      | some q => if sqDist p.2.weights w < sqDist q.2.weights w then some p else some q)
    none

/-- Rewrite the node stored at a coordinate. -/
def update {S : Type} (net : Network S) (c : Coordinate) (f : Node S → Node S) : Network S :=
  { net with nodes := net.nodes.map (fun p => if p.1 = c then (p.1, f p.2) else p) }

/-- Modelled from the spec: GSOM growth — add a node for each missing cardinal
neighbor of the BMU, initializing its weights by extrapolation (mirror across
the BMU when the opposite neighbor exists, else midpoint toward the next node
on the same axis, else copy plus a small perturbation), then reset the BMU
error to `0.5·GT`. -/
def grow {S : Type} (net : Network S) (c : Coordinate) : Network S :=
  let bmuWeights := ((net.find c).map (fun n => n.weights)).getD []
  let withNew :=
    [((1 : ℤ), (0 : ℤ)), (-1, 0), (0, 1), (0, -1)].foldl
      (fun m d =>
        let target : Coordinate := (c.1 + d.1, c.2 + d.2)
        if (m.find target).isSome then m
        else
          let opposite : Coordinate := (c.1 - d.1, c.2 - d.2)
          let onAxis : Coordinate := (c.1 + 2 * d.1, c.2 + 2 * d.2)
          let w :=
            match m.find opposite with
            | some o => (bmuWeights.zip o.weights).map (fun p => 2 * p.1 - p.2)
            | none =>
              match m.find onAxis with
              | some o => (bmuWeights.zip o.weights).map (fun p => (p.1 + p.2) / 2)
              | none => bmuWeights.map (fun x => x + 1 / 1000)
          let initialError := if m.hasInitialError then m.growthThreshold / 2 else 0
          { m with
            nodes := m.nodes ++
              [(target,
                { weights := w, error := initialError, storage := m.storageTemplate,
                  lastHit := m.time })] })
      net
  withNew.update c (fun n => { n with error := net.growthThreshold / 2 })

/-- Modelled from the spec: training a single input (`Network::store`): find
the BMU, accumulate its squared-distance error, update BMU and neighbor
weights, route the solution into the BMU's local archive, grow when the
accumulated error exceeds the growth threshold, and stamp the BMU with the
current generation. -/
def store {S : Type} (net : Network S) (input : IndividualInput S) (generation : ℕ) :
    Network S :=
  match net.findBmu input.weights with
  | none => net
  | some (c, bmu) =>
    let err := sqDist bmu.weights input.weights
    let net1 := net.update c
      (fun n =>
        { n with
          error := n.error + err,
          weights := adjustWeights n.weights input.weights net.learningRate,
          storage := (n.storage.add input.individual).1,
          lastHit := generation })
    let net2 := (neighborsOf c).foldl
      (fun m nb =>
        m.update nb
          (fun n =>
            { n with
              weights :=
                adjustWeights n.weights input.weights
                  (net.learningRate * net.distributionFactor) }))
      net1
    let net3 := if net.growthThreshold < bmu.error + err then net2.grow c else net2
    { net3 with time := max net3.time generation }

/-- `Network::store_batch`: `store` applied to each item in order. -/
def storeBatch {S : Type} (net : Network S) (inputs : List (IndividualInput S))
    (generation : ℕ) : Network S :=
  inputs.foldl (fun m i => m.store i generation) net

/-- Empty every node-local archive, returning the drained solutions. -/
def drainAll {S : Type} (net : Network S) : Network S × List S :=
  ({ net with
      nodes := net.nodes.map
        (fun p => (p.1, { p.2 with storage := { p.2.storage with individuals := [] } })) },
    (net.nodes.map (fun p => p.2.storage.individuals)).flatten)

/-- One retraining pass: drain all archives and re-feed the drained solutions
(plus any extra pending ones) through `store` at the current clock. -/
def retrainLoop {S : Type} (weightsOf : S → List ℚ) :
    ℕ → Network S → List S → Network S
  | 0, net, _ => net
  | k + 1, net, extra =>
    let p := net.drainAll
    retrainLoop weightsOf k
      ((p.2 ++ extra).foldl
        (fun m s => m.store { weights := weightsOf s, individual := s } m.time) p.1)
      []

/-- Modelled from the spec: `Network::retrain(count, keep_predicate)` — drain
and delete the nodes the predicate rejects, re-feed the drained solutions
(and the kept nodes' own solutions) for `count` passes, then clear per-node
errors unless `has_initial_error` is set. -/
def retrain {S : Type} (weightsOf : S → List ℚ) (net : Network S) (count : ℕ)
    (keep : Node S → Bool) : Network S :=
  let kept := net.nodes.filter (fun p => keep p.2)
  let dropped := net.nodes.filter (fun p => !keep p.2)
  let drained := (dropped.map (fun p => p.2.storage.individuals)).flatten
  let net1 := retrainLoop weightsOf count { net with nodes := kept } drained
  if net1.hasInitialError then net1
  else { net1 with nodes := net1.nodes.map (fun p => (p.1, { p.2 with error := 0 })) }

/-- Coordinates of the initial 2×2 seed. -/
def seedCoords : List Coordinate := [(0, 0), (0, 1), (1, 0), (1, 1)]

/-- Modelled from the spec: `Network::new` — a fresh map seeded with a 2×2
grid of four nodes built from four seed inputs; each seed solution is placed
into its node's local archive. -/
def new4 {S : Type} (inputs : List (IndividualInput S)) (growthThreshold : ℚ)
    (learningRate distributionFactor : ℚ) (hasInitialError : Bool)
    (rebalanceMemory : ℕ) (template : Elitism S) : Network S :=
  { nodes :=
      (seedCoords.zip inputs).map
        (fun p =>
          (p.1,
            { weights := p.2.weights, error := 0,
              storage := (template.add p.2.individual).1, lastHit := 0 })),
    time := 0, growthThreshold := growthThreshold, learningRate := learningRate,
    distributionFactor := distributionFactor, hasInitialError := hasInitialError,
    rebalanceMemory := rebalanceMemory, storageTemplate := template }

end Network

/-- Rosomaxa configuration settings (`RosomaxaConfig`). -/
structure RosomaxaConfig where
  selection_size : ℕ
  elite_size : ℕ
  node_size : ℕ
  spread_factor : ℚ
  distribution_factor : ℚ
  objective_reshuffling : ℚ
  learning_rate : ℚ
  rebalance_memory : ℕ
  rebalance_count : ℕ
  exploration_ratio : ℚ

/-- `RosomaxaConfig::new_with_defaults` for a given selection size. -/
def RosomaxaConfig.newWithDefaults (selectionSize : ℕ) : RosomaxaConfig :=
  { selection_size := selectionSize, elite_size := 2, node_size := 2,
    spread_factor := 1/4, distribution_factor := 1/4, objective_reshuffling := 1/100,
    learning_rate := 1/10, rebalance_memory := 100, rebalance_count := 2,
    exploration_ratio := 9/10 }

/-- The phase sum type of the population manager (`RosomaxaPhases`). -/
inductive RosomaxaPhases (S : Type) where
  | Initial (solutions : List S)
  | Exploration (network : Network S) (coordinates : List (Coordinate × ℚ × ℕ))
      (statistics : HeuristicStatistics) (selectionSize : ℕ)
  | Exploitation (selectionSize : ℕ)

/-- Publicly visible phase tag (`SelectionPhase`). -/
inductive SelectionPhase where
  | Initial
  | Exploration
  | Exploitation
deriving DecidableEq

/-- Rank of a phase along the one-way progression
Initial → Exploration → Exploitation. -/
def phaseRank : SelectionPhase → ℕ
  | SelectionPhase.Initial => 0
  | SelectionPhase.Exploration => 1
  | SelectionPhase.Exploitation => 2

/-- The ROSOMAXA population state (`Rosomaxa<O, S>`): objective total order,
configuration, elite archive and the current phase. -/
structure Rosomaxa (S : Type) where
  objective : S → S → Ordering
  config : RosomaxaConfig
  elite : Elitism S
  phase : RosomaxaPhases S

/-- RNG inputs consumed by one `on_generation` call during Exploration: the
sort-choice coin of `fill_populations` and the raw draws of the partial/full
shuffles. -/
structure ShuffleInputs where
  coin : Bool
  partDraws : List ℕ
  fullDraws : List ℕ

namespace Rosomaxa

/-- `Rosomaxa::new`: validates the configuration and starts in the Initial
phase with an empty buffer; the elite archive has capacity `elite_size` and
selection size `selection_size`. -/
def new {S : Type} (objective : S → S → Ordering) (config : RosomaxaConfig) :
    Except String (Rosomaxa S) :=
  if config.elite_size < 1 ∨ config.node_size < 1 ∨ config.selection_size < 2 then
    Except.error "Rosomaxa algorithm requires some parameters to be above thresholds"
  else
    Except.ok
      { objective := objective, config := config,
        elite := Elitism.new objective config.elite_size config.selection_size,
        phase := RosomaxaPhases.Initial [] }

/-- `Rosomaxa::selection_phase`. -/
def selectionPhase {S : Type} (r : Rosomaxa S) : SelectionPhase :=
  match r.phase with
  | RosomaxaPhases.Initial _ => SelectionPhase.Initial
  | RosomaxaPhases.Exploration _ _ _ _ => SelectionPhase.Exploration
  | RosomaxaPhases.Exploitation _ => SelectionPhase.Exploitation

/-- `Rosomaxa::is_comparable_with_best_known`: accept when the elite archive
is empty, or when the candidate is not strictly worse than the best known
member under the objective's total order. -/
def isComparableWithBestKnown {S : Type} (r : Rosomaxa S) (individual : S)
    (bestKnown : Option S) : Bool :=
  match bestKnown with
  | none => true
  | some best => !(r.objective individual best == Ordering.gt)

/-- `Rosomaxa::add`: deep-copy the candidate into the elite archive when it is
comparable with the best known member, then route the original into the
current phase's store (Initial buffer, GSOM via `store`, or discarded). -/
def add {S : Type} (weightsOf : S → List ℚ) (r : Rosomaxa S) (individual : S) :
    Rosomaxa S × Bool :=
  let bestKnown := (r.elite.ranked.head?).map (fun p => p.1)
  let pr :=
    if r.isComparableWithBestKnown individual bestKnown then r.elite.add individual
    else (r.elite, false)
  let phase' :=
    match r.phase with
    | RosomaxaPhases.Initial solutions => RosomaxaPhases.Initial (solutions ++ [individual])
    | RosomaxaPhases.Exploration network coordinates statistics selectionSize =>
      RosomaxaPhases.Exploration
        (network.store (IndividualInput.new weightsOf individual) statistics.generation)
        coordinates statistics selectionSize
    | RosomaxaPhases.Exploitation selectionSize => RosomaxaPhases.Exploitation selectionSize
  ({ r with elite := pr.1, phase := phase' }, pr.2)

/-- `Rosomaxa::add_all`: pre-filter the batch against the best known member,
add the comparable ones to the elite archive in one call, then route the
originals into the current phase's store (batch store for the GSOM). -/
def addAll {S : Type} (weightsOf : S → List ℚ) (r : Rosomaxa S) (individuals : List S) :
    Rosomaxa S × Bool :=
  let bestKnown := (r.elite.ranked.head?).map (fun p => p.1)
  let elig := individuals.filter (fun i => r.isComparableWithBestKnown i bestKnown)
  let pr := r.elite.addAll elig
  let phase' :=
    match r.phase with
    | RosomaxaPhases.Initial solutions => RosomaxaPhases.Initial (solutions ++ individuals)
    | RosomaxaPhases.Exploration network coordinates statistics selectionSize =>
      RosomaxaPhases.Exploration
        (network.storeBatch (individuals.map (IndividualInput.new weightsOf))
          statistics.generation)
        coordinates statistics selectionSize
    | RosomaxaPhases.Exploitation selectionSize => RosomaxaPhases.Exploitation selectionSize
  ({ r with elite := pr.1, phase := phase' }, pr.2)

/-- Selection-size retuning from speed, as computed at the top of
`Rosomaxa::update_phase`: `Slow(ratio)` gives
`(selection_size · ratio).max(1.).round() as usize`, `Moderate` keeps the
configured selection size. -/
def selectionSizeOf (config : RosomaxaConfig) (speed : HeuristicSpeed) : ℕ :=
  match speed with
  | HeuristicSpeed.Slow ratio =>
    rustRoundToNat (max ((config.selection_size : ℚ) * ratio) 1)
  | HeuristicSpeed.Moderate => config.selection_size

/-- `Rosomaxa::calculate_shuffle_amount`: ratio from the improvement rate
(sigmoid-clamped when improving fast), then `round(length · ratio)`. -/
def calculateShuffleAmount (F : RealFuns) (statistics : HeuristicStatistics)
    (length : ℕ) : ℕ :=
  let ratio : ℚ :=
    if 1/2 < statistics.improvement_1000_ratio then
      rustClamp
        (1/2 * (1 - 1 / (1 + F.exp (-10 * (statistics.termination_estimate - 1/2)))))
        (1/10) (1/2)
    else if 1/5 < statistics.improvement_1000_ratio then 1/2
    else 1
  rustRoundToNat ((length : ℚ) * ratio)

/-- The `keep_size` computed by `Rosomaxa::optimize_network`: a multiple of
`rebalance_memory` chosen from the improvement rate (sigmoid of the clamped
termination estimate when improving fast), cast to `usize` by truncation. -/
def keepSizeOf (F : RealFuns) (statistics : HeuristicStatistics)
    (rebalanceMemory : ℕ) : ℕ :=
  let R : ℚ := rebalanceMemory
  rustToUsize
    (if 1/5 < statistics.improvement_1000_ratio then
      let x := rustClamp statistics.termination_estimate 0 1
      let ratio := 1 - 1 / (1 + F.exp (-10 * (x - 1/2)))
      R + R * ratio
    else if 1/10 < statistics.improvement_1000_ratio then 2 * R
    else if 1/100 < statistics.improvement_1000_ratio then 3 * R
    else 4 * R)

/-- The distance of a node used by `Rosomaxa::optimize_network`: relative
distance from the best fitness to the node's best local individual's fitness,
when the local archive yields one. -/
def nodeDistanceOf {S : Type} (F : RealFuns) (getFitness : S → List ℚ)
    (bestFitness : List ℚ) (node : Node S) : Option ℚ :=
  (node.storage.select.head?).map
    (fun individual => relativeDistance F.sqrt bestFitness (getFitness individual))

/-- `Rosomaxa::optimize_network`: compute `keep_size`; return unchanged at
generation 0 or when the network is small enough; otherwise sort node
distances descending, pick the percentile threshold and retrain, keeping only
nodes strictly closer than the threshold. -/
def optimizeNetwork {S : Type} (F : RealFuns) (weightsOf : S → List ℚ)
    (getFitness : S → List ℚ) (network : Network S)
    (statistics : HeuristicStatistics) (bestFitness : List ℚ)
    (rebalanceMemory rebalanceCount : ℕ) : Network S :=
  let keepSize := keepSizeOf F statistics rebalanceMemory
  if statistics.generation = 0 ∨ network.size ≤ keepSize then network
  else
    let distances :=
      sortedBy (fun a b => compare_floats b a)
        ((network.nodes.map (fun p => p.2)).filterMap
          (nodeDistanceOf F getFitness bestFitness))
    let percentileIdx :=
      if keepSize < distances.length then distances.length - keepSize
      else rustToUsize ((distances.length : ℚ) * (3/4))
    match distances.get? percentileIdx with
    | some distanceThreshold =>
      network.retrain weightsOf rebalanceCount
        (fun node =>
          (nodeDistanceOf F getFitness bestFitness node).elim false
            (fun d => decide (d < distanceThreshold)))
    | none => network

/-- `Rosomaxa::fill_populations`: rebuild the coordinate list from the nodes
with a non-empty local archive, then partially or fully shuffle it according
to `calculate_shuffle_amount` (sorting first by distance or last-hit on a coin
flip when the shuffle is partial). -/
def fillPopulations {S : Type} (F : RealFuns) (getFitness : S → List ℚ)
    (network : Network S) (bestFitness : List ℚ)
    (statistics : HeuristicStatistics) (rnd : ShuffleInputs) :
    List (Coordinate × ℚ × ℕ) :=
  let coordinates := network.nodes.filterMap
    (fun p =>
      (p.2.storage.select.head?).map
        (fun individual =>
          (p.1, relativeDistance F.sqrt bestFitness (getFitness individual),
            p.2.getLastHits network.getCurrentTime)))
  let shuffleAmount := calculateShuffleAmount F statistics coordinates.length
  if shuffleAmount ≠ coordinates.length then
    let sorted :=
      if rnd.coin then
        sortedBy (fun a b => compare_floats a.2.1 b.2.1) coordinates
      else sortedBy (fun a b => compare a.2.2 b.2.2) coordinates
    fyShufflePart rnd.partDraws sorted shuffleAmount
  else fyPermute rnd.fullDraws coordinates

/-- `Rosomaxa::create_network`: build the GSOM seeded by (exactly) four
individuals, with growth threshold `−d·ln(1 − spread_factor)` and a
node-local archive template of capacity `node_size`. -/
def createNetwork {S : Type} (F : RealFuns) (weightsOf : S → List ℚ)
    (objective : S → S → Ordering) (config : RosomaxaConfig)
    (individuals : List S) : Network S :=
  let inputs := individuals.map (IndividualInput.new weightsOf)
  let dim := ((inputs.head?).map (fun i => i.weights.length)).getD 0
  Network.new4 inputs (-(dim : ℚ) * F.ln (1 - config.spread_factor))
    config.learning_rate config.distribution_factor true config.rebalance_memory
    (Elitism.new objective config.node_size config.node_size)

/-- `Rosomaxa::update_phase` (the body of `on_generation`): retune the
selection size from speed, then either seed the GSOM from the Initial buffer,
continue Exploration (optimize the network and refill the coordinates) or
transition to/stay in Exploitation.  The source's `expect` on an empty elite
(a programming error per the spec, unreachable once Exploration is entered)
is modelled by an empty best-fitness vector; theorems about the staying
branch assume a non-empty elite. -/
def updatePhase {S : Type} (F : RealFuns) (weightsOf : S → List ℚ)
    (getFitness : S → List ℚ) (r : Rosomaxa S)
    (statistics : HeuristicStatistics) (rnd : ShuffleInputs) : Rosomaxa S :=
  let selectionSize := selectionSizeOf r.config statistics.speed
  match r.phase with
  | RosomaxaPhases.Initial individuals =>
    if 4 ≤ individuals.length then
      let seed := createNetwork F weightsOf r.objective r.config (individuals.take 4)
      let network := (individuals.drop 4).foldl
        (fun n individual => n.store (IndividualInput.new weightsOf individual) 0) seed
      { r with phase := RosomaxaPhases.Exploration network [] statistics selectionSize }
    else r
  | RosomaxaPhases.Exploration network _ oldStatistics _ =>
    let explorationRatio : ℚ :=
      match oldStatistics.speed with
      | HeuristicSpeed.Slow ratio => r.config.exploration_ratio * ratio
      | HeuristicSpeed.Moderate => r.config.exploration_ratio
    if statistics.termination_estimate < explorationRatio then
      let bestFitness := ((r.elite.select.head?).map getFitness).getD []
      let network' := optimizeNetwork F weightsOf getFitness network statistics
        bestFitness r.config.rebalance_memory r.config.rebalance_count
      let coordinates' := fillPopulations F getFitness network' bestFitness
        statistics rnd
      { r with
        phase := RosomaxaPhases.Exploration network' coordinates' statistics selectionSize }
    else { r with phase := RosomaxaPhases.Exploitation selectionSize }
  | RosomaxaPhases.Exploitation _ =>
    { r with phase := RosomaxaPhases.Exploitation selectionSize }

/-- `Rosomaxa::select`: Exploitation takes the first `selection_size` elite
members; Exploration splits the selection size into elite picks and per-node
picks and truncates the combined stream; Initial delegates to the elite
archive. -/
def select {S : Type} (r : Rosomaxa S) (eliteRaw : ℕ) (nodeRaw : Coordinate → ℕ) :
    List S :=
  match r.phase with
  | RosomaxaPhases.Exploration network coordinates _ selectionSize =>
    let picks : ℕ × ℕ :=
      if 6 < selectionSize then ((uniformInt 2 4 eliteRaw).toNat, 2)
      else if 4 < selectionSize then (2, 2)
      else if 2 < selectionSize then (2, 1)
      else (1, 1)
    ((r.elite.select.take picks.1) ++
        (coordinates.map
          (fun c =>
            let exploreSize := (uniformInt 1 (picks.2 : ℤ) (nodeRaw c.1)).toNat
            ((network.find c.1).map (fun node => node.storage.select.take exploreSize)).getD
              [])).flatten).take
      selectionSize
  | RosomaxaPhases.Exploitation selectionSize => r.elite.select.take selectionSize
  | RosomaxaPhases.Initial _ => r.elite.select

end Rosomaxa

/-- One driver-visible operation on the population. -/
inductive RosomaxaOp (S : Type) where
  | add (individual : S)
  | addAll (individuals : List S)
  | onGeneration (statistics : HeuristicStatistics) (rnd : ShuffleInputs)
  | select

/-- State transition of a single operation (`select` reads only). -/
def Rosomaxa.step {S : Type} (F : RealFuns) (weightsOf : S → List ℚ)
    (getFitness : S → List ℚ) (r : Rosomaxa S) : RosomaxaOp S → Rosomaxa S
  | RosomaxaOp.add individual => (r.add weightsOf individual).1
  | RosomaxaOp.addAll individuals => (r.addAll weightsOf individuals).1
  | RosomaxaOp.onGeneration statistics rnd => r.updatePhase F weightsOf getFitness statistics rnd
  | RosomaxaOp.select => r

/-- Run a sequence of operations from a state. -/
def Rosomaxa.run {S : Type} (F : RealFuns) (weightsOf : S → List ℚ)
    (getFitness : S → List ℚ) (r : Rosomaxa S) (ops : List (RosomaxaOp S)) : Rosomaxa S :=
  ops.foldl (fun s op => s.step F weightsOf getFitness op) r

/-- Claim-side variant of the `optimize_network` keep size that follows the
spec's words — "rounded to an integer" — instead of the source's `as usize`
truncation; used to compare the two. -/
def keepSizeRoundedSpec (F : RealFuns) (statistics : HeuristicStatistics)
    (rebalanceMemory : ℕ) : ℕ :=
  let R : ℚ := rebalanceMemory
  rustRoundToNat
    (if 1/5 < statistics.improvement_1000_ratio then
      let x := rustClamp statistics.termination_estimate 0 1
      let ratio := 1 - 1 / (1 + F.exp (-10 * (x - 1/2)))
      R + R * ratio
    else if 1/10 < statistics.improvement_1000_ratio then 2 * R
    else if 1/100 < statistics.improvement_1000_ratio then 3 * R
    else 4 * R)

/-- Concrete solution carrier for witnesses: a solution is a single rational,
ordered by value (minimization). -/
def qOrder (a b : ℚ) : Ordering := compare_floats a b

/-- Weights of a concrete solution: the singleton vector. -/
def qWeights (x : ℚ) : List ℚ := [x]

/-- Fitness of a concrete solution: the singleton vector. -/
def qFitness (x : ℚ) : List ℚ := [x]

/-- Concrete computable stand-ins for the transcendental operations:
first-order Taylor approximations (so `exp 0 = 1` and `ln 1 = 0`, exactly as
for the true functions at those points) and the identity for `sqrt` (which
the developments only use through monotone comparisons of distances). -/
def modelFuns : RealFuns := { exp := fun x => 1 + x, ln := fun x => x - 1, sqrt := fun x => x }

/-- A small concrete configuration (valid under the construction checks). -/
def cfgW : RosomaxaConfig :=
  { selection_size := 4, elite_size := 2, node_size := 2, spread_factor := 1/4,
    distribution_factor := 1/4, objective_reshuffling := 1/100, learning_rate := 1/10,
    rebalance_memory := 1, rebalance_count := 1, exploration_ratio := 9/10 }

/-- A concrete GSOM node holding the given individuals. -/
def nodeOf (w : ℚ) (inds : List ℚ) (hit : ℕ) : Node ℚ :=
  { weights := [w], error := 0,
    storage := { order := qOrder, maxSize := 2, selectionSize := 2, individuals := inds },
    lastHit := hit }

/-- A concrete two-node network (both local archives non-empty). -/
def cnet2 : Network ℚ :=
  { nodes := [((0, 0), nodeOf 7 [7] 1), ((1, 0), nodeOf 12 [12] 1)], time := 2,
    growthThreshold := 1, learningRate := 1/10, distributionFactor := 1/4,
    hasInitialError := true, rebalanceMemory := 1,
    storageTemplate := Elitism.new qOrder 2 2 }

/-- A concrete three-node network (all local archives non-empty). -/
def cnet3 : Network ℚ :=
  { nodes :=
      [((0, 0), nodeOf 7 [7] 1), ((0, 1), nodeOf 8 [8] 2), ((1, 0), nodeOf 12 [12] 1)],
    time := 2, growthThreshold := 1, learningRate := 1/10, distributionFactor := 1/4,
    hasInitialError := true, rebalanceMemory := 1,
    storageTemplate := Elitism.new qOrder 2 2 }

/-- Statistics making `optimize_network` pass its guard with a fractional
keep size: generation 1, improvement rate 3/10, termination estimate 1/2. -/
def statsHalf : HeuristicStatistics :=
  { generation := 1, termination_estimate := 1/2, improvement_1000_ratio := 3/10,
    speed := HeuristicSpeed.Moderate }

/-- Statistics with a moderate improvement rate (2·R branch): generation 1,
improvement rate 3/20. -/
def statsMid : HeuristicStatistics :=
  { generation := 1, termination_estimate := 1/2, improvement_1000_ratio := 3/20,
    speed := HeuristicSpeed.Moderate }

/-- Statistics with no recent improvement, early in the run: generation 1,
termination estimate 1/10. -/
def statsEarly : HeuristicStatistics :=
  { generation := 1, termination_estimate := 1/10, improvement_1000_ratio := 0,
    speed := HeuristicSpeed.Moderate }

/-- Statistics at generation 0 (makes `optimize_network` a no-op). -/
def statsGen0 : HeuristicStatistics :=
  { generation := 0, termination_estimate := 1/2, improvement_1000_ratio := 3/20,
    speed := HeuristicSpeed.Moderate }

/-- Incoming statistics used by the C4 counterexample: Moderate speed,
termination estimate 3/5. -/
def statsIncoming : HeuristicStatistics :=
  { generation := 5, termination_estimate := 3/5, improvement_1000_ratio := 0,
    speed := HeuristicSpeed.Moderate }

/-- Previously stored Exploration statistics whose speed is `Slow(1/2)`. -/
def statsStoredSlow : HeuristicStatistics :=
  { generation := 4, termination_estimate := 2/5, improvement_1000_ratio := 0,
    speed := HeuristicSpeed.Slow (1/2) }

/-- Fixed RNG inputs for one `on_generation` call. -/
def rndW : ShuffleInputs := { coin := true, partDraws := [0, 1, 2], fullDraws := [1, 0, 2] }

/-- A concrete population in the Initial phase with four buffered solutions. -/
def rInit4 : Rosomaxa ℚ :=
  { objective := qOrder, config := cfgW,
    elite := { order := qOrder, maxSize := 2, selectionSize := 4, individuals := [7, 8] },
    phase := RosomaxaPhases.Initial [10, 8, 12, 7] }

/-- A concrete population in the Exploration phase whose stored statistics
have speed `Slow(1/2)`. -/
def rExplSlow : Rosomaxa ℚ :=
  { objective := qOrder, config := cfgW,
    elite := { order := qOrder, maxSize := 2, selectionSize := 4, individuals := [7] },
    phase := RosomaxaPhases.Exploration cnet2 [] statsStoredSlow 4 }

/-- Stored Exploration statistics with Moderate speed. -/
def statsOldMod : HeuristicStatistics :=
  { generation := 1, termination_estimate := 1/10, improvement_1000_ratio := 0,
    speed := HeuristicSpeed.Moderate }

/-- A concrete population in the Exploration phase with Moderate stored
statistics. -/
def rExplMod : Rosomaxa ℚ :=
  { objective := qOrder, config := cfgW,
    elite := { order := qOrder, maxSize := 2, selectionSize := 4, individuals := [7] },
    phase := RosomaxaPhases.Exploration cnet2 [] statsOldMod 4 }

/-- A concrete population in the Exploitation phase. -/
def rExploit : Rosomaxa ℚ :=
  { objective := qOrder, config := cfgW,
    elite := { order := qOrder, maxSize := 2, selectionSize := 4, individuals := [7, 8] },
    phase := RosomaxaPhases.Exploitation 3 }

theorem rustRound_mono {x y : ℚ} (h : x ≤ y) : rustRound x ≤ rustRound y := by
  unfold rustRound
  by_cases hx : 0 ≤ x
  · have hy : 0 ≤ y := le_trans hx h
    simp only [if_pos hx, if_pos hy]
    exact Int.floor_le_floor (by linarith)
  · by_cases hy : 0 ≤ y
    · simp only [if_neg hx, if_pos hy]
      have h1 : (⌈x - 1/2⌉ : ℤ) ≤ 0 := by
        have hx2 : x - 1/2 ≤ 0 := by linarith [not_le.mp hx]
        exact le_trans (Int.ceil_le_ceil hx2) (by norm_num)
      have h2 : (0 : ℤ) ≤ ⌊y + 1/2⌋ := by
        apply Int.le_floor.mpr
        push_cast
        linarith
      exact le_trans h1 h2
    · simp only [if_neg hx, if_neg hy]
      exact Int.ceil_le_ceil (by linarith)

theorem rustRound_natCast (n : ℕ) : rustRound (n : ℚ) = n := by
  unfold rustRound
  rw [if_pos (by positivity)]
  rw [Int.floor_eq_iff]
  constructor
  · push_cast; linarith
  · push_cast; linarith

theorem rustRound_one : rustRound 1 = 1 := by
  have := rustRound_natCast 1
  simpa using this

theorem rustRoundToNat_natMul_le (n : ℕ) {q : ℚ} (h : q ≤ 1) :
    rustRoundToNat ((n : ℚ) * q) ≤ n := by
  unfold rustRoundToNat
  have h1 : rustRound ((n : ℚ) * q) ≤ rustRound (n : ℚ) := by
    apply rustRound_mono
    nlinarith [show (0 : ℚ) ≤ (n : ℚ) by positivity]
  rw [rustRound_natCast] at h1
  omega

theorem selectionSizeOf_eq_specForm (config : RosomaxaConfig) (speed : HeuristicSpeed) :
    Rosomaxa.selectionSizeOf config speed =
      match speed with
      | HeuristicSpeed.Moderate => config.selection_size
      | HeuristicSpeed.Slow ratio =>
        max 1 (rustRoundToNat ((config.selection_size : ℚ) * ratio)) := by
  cases speed with
  | Moderate => rfl
  | Slow ratio =>
    simp only [Rosomaxa.selectionSizeOf]
    set q : ℚ := (config.selection_size : ℚ) * ratio with hq
    by_cases h : q ≤ 1
    · have hmax : max q 1 = 1 := max_eq_right h
      have hle : rustRound q ≤ 1 := by
        have h2 := rustRound_mono h
        rwa [rustRound_one] at h2
      rw [hmax]
      unfold rustRoundToNat
      rw [rustRound_one]
      omega
    · have hmax : max q 1 = q := max_eq_left (le_of_not_le h)
      have hge : 1 ≤ rustRound q := by
        have h2 := rustRound_mono (le_of_not_le h)
        rwa [rustRound_one] at h2
      rw [hmax]
      unfold rustRoundToNat
      omega

theorem insertSortedBy_perm {α : Type} (cmp : α → α → Ordering) (x : α) (l : List α) :
    List.Perm (insertSortedBy cmp x l) (x :: l) := by
  induction l with
  | nil => simp [insertSortedBy]
  | cons y ys ih =>
    simp only [insertSortedBy]
    by_cases h : cmp x y = Ordering.lt
    · simp [h]
    · rw [if_neg h]
      exact (ih.cons y).trans (List.Perm.swap x y ys)

theorem sortedBy_fold_perm {α : Type} (cmp : α → α → Ordering) (l acc : List α) :
    List.Perm (l.foldl (fun a x => insertSortedBy cmp x a) acc) (acc ++ l) := by
  induction l generalizing acc with
  | nil => simp
  | cons x xs ih =>
    simp only [List.foldl_cons]
    refine ((ih _).trans ?_)
    refine ((insertSortedBy_perm cmp x acc).append_right xs).trans ?_
    exact List.perm_middle.symm

theorem sortedBy_perm {α : Type} (cmp : α → α → Ordering) (l : List α) :
    List.Perm (sortedBy cmp l) l := by
  simpa using sortedBy_fold_perm cmp l []

theorem getD_cons_eraseIdx_perm {α : Type} (l : List α) (i : ℕ) (d : α)
    (h : i < l.length) : List.Perm (l.getD i d :: l.eraseIdx i) l := by
  induction l generalizing i with
  | nil => simp at h
  | cons x xs ih =>
    cases i with
    | zero => simp
    | succ n =>
      have hn : n < xs.length := by simpa using h
      simp only [List.getD_cons_succ, List.eraseIdx_cons_succ]
      exact (List.Perm.swap x (xs.getD n d) (xs.eraseIdx n)).trans ((ih n hn).cons x)

theorem fyPermute_perm {α : Type} (ds : List ℕ) (l : List α) :
    List.Perm (fyPermute ds l) l := by
  induction ds generalizing l with
  | nil => cases l <;> simp [fyPermute]
  | cons d ds ih =>
    cases l with
    | nil => simp [fyPermute]
    | cons x xs =>
      simp only [fyPermute]
      have hi : d % (x :: xs).length < (x :: xs).length :=
        Nat.mod_lt _ (by simp [Nat.succ_pos])
      exact ((ih _).cons _).trans (getD_cons_eraseIdx_perm _ _ _ hi)

theorem fyShufflePart_perm {α : Type} (ds : List ℕ) (l : List α) (amount : ℕ) :
    List.Perm (fyShufflePart ds l amount) l := by
  unfold fyShufflePart
  refine ((fyPermute_perm ds (l.take amount)).append_right _).trans ?_
  rw [List.take_append_drop]

theorem fyShufflePart_drop {α : Type} (ds : List ℕ) (l : List α) (amount : ℕ)
    (h : amount ≤ l.length) :
    (fyShufflePart ds l amount).drop amount = l.drop amount := by
  unfold fyShufflePart
  have hlen : (fyPermute ds (l.take amount)).length = amount := by
    rw [(fyPermute_perm ds (l.take amount)).length_eq, List.length_take]
    omega
  rw [List.drop_append_of_le_length (le_of_eq hlen.symm),
    List.drop_eq_nil_of_le (le_of_eq hlen)]
  simp

theorem calculateShuffleAmount_le (F : RealFuns) (statistics : HeuristicStatistics)
    (len : ℕ) : Rosomaxa.calculateShuffleAmount F statistics len ≤ len := by
  simp only [Rosomaxa.calculateShuffleAmount]
  apply rustRoundToNat_natMul_le
  split_ifs with h1 h2
  · exact le_trans (min_le_right _ _) (by norm_num)
  · norm_num
  · exact le_refl 1

theorem length_filterMap_eq_countP {α β : Type} (f : α → Option β) (l : List α) :
    (l.filterMap f).length = l.countP (fun a => (f a).isSome) := by
  induction l with
  | nil => simp
  | cons x xs ih =>
    cases h : f x <;> simp [List.filterMap_cons, h, List.countP_cons, ih]

theorem ranked_head_eq {S : Type} (e : Elitism S) :
    (e.ranked.head?).map (fun p => p.1) = e.individuals.head? := by
  cases h : e.individuals with
  | nil => simp [Elitism.ranked, h]
  | cons x xs => simp [Elitism.ranked, h, List.enum_cons]

theorem rustToUsize_three_quarters (n : ℕ) :
    rustToUsize ((n : ℚ) * (3/4)) = 3 * n / 4 := by
  unfold rustToUsize
  have h1 : (3 * n / 4) * 4 ≤ 3 * n := by omega
  have h2 : 3 * n < (3 * n / 4 + 1) * 4 := by omega
  have h1c : ((3 * n / 4 : ℕ) : ℚ) * 4 ≤ 3 * (n : ℚ) := by exact_mod_cast h1
  have h2c : 3 * (n : ℚ) < ((3 * n / 4 : ℕ) : ℚ) * 4 + 4 := by
    have h3 : 3 * n < (3 * n / 4) * 4 + 4 := by omega
    exact_mod_cast h3
  have h : ⌊((n : ℚ) * (3/4))⌋ = ((3 * n / 4 : ℕ) : ℤ) := by
    rw [Int.floor_eq_iff]
    constructor
    · have hc : (((3 * n / 4 : ℕ) : ℤ) : ℚ) = ((3 * n / 4 : ℕ) : ℚ) := by norm_cast
      rw [hc]
      linarith
    · have hc : ((((3 * n / 4 : ℕ) : ℤ) : ℚ) + 1) = ((3 * n / 4 : ℕ) : ℚ) + 1 := by
        norm_cast
      rw [hc]
      linarith
  rw [h]
  omega

/-- C1: for every population state and individual, `add` copies the individual
into the elite archive exactly when the archive is empty or the objective's
total order against the rank-0 member is not `Greater`; the original is then
routed to the phase store (Initial buffer, GSOM `store`, or discarded in
Exploitation), and the returned flag is the elite archive's improvement
result, `false` whenever the candidate was filtered out as strictly worse. -/
theorem c1_add_filter_and_routing {S : Type} (weightsOf : S → List ℚ)
    (r : Rosomaxa S) (individual : S) :
    (r.isComparableWithBestKnown individual ((r.elite.ranked.head?).map (fun p => p.1)) = true ↔
      (r.elite.individuals = [] ∨
        ∃ best, r.elite.individuals.head? = some best ∧
          r.objective individual best ≠ Ordering.gt)) ∧
    (r.add weightsOf individual).1.elite =
      (if r.isComparableWithBestKnown individual ((r.elite.ranked.head?).map (fun p => p.1))
        then (r.elite.add individual).1 else r.elite) ∧
    (r.add weightsOf individual).2 =
      (if r.isComparableWithBestKnown individual ((r.elite.ranked.head?).map (fun p => p.1))
        then (r.elite.add individual).2 else false) ∧
    (r.add weightsOf individual).1.phase =
      (match r.phase with
        | RosomaxaPhases.Initial solutions =>
          RosomaxaPhases.Initial (solutions ++ [individual])
        | RosomaxaPhases.Exploration network coordinates statistics selectionSize =>
          RosomaxaPhases.Exploration
            (network.store (IndividualInput.new weightsOf individual) statistics.generation)
            coordinates statistics selectionSize
        | RosomaxaPhases.Exploitation selectionSize =>
          RosomaxaPhases.Exploitation selectionSize) := by
  refine ⟨?_, ?_, ?_, ?_⟩
  · rw [show ((r.elite.ranked.head?).map (fun p => p.1)) = r.elite.individuals.head? from
      ranked_head_eq r.elite]
    cases hl : r.elite.individuals with
    | nil => simp [Rosomaxa.isComparableWithBestKnown, hl]
    | cons b t =>
      simp [Rosomaxa.isComparableWithBestKnown, hl]
      cases hx : r.objective individual b <;> simp [hx] <;> rfl
  · by_cases hc : r.isComparableWithBestKnown individual
      ((r.elite.ranked.head?).map (fun p => p.1)) = true
    · simp [Rosomaxa.add, hc]
    · simp [Rosomaxa.add, hc]
  · by_cases hc : r.isComparableWithBestKnown individual
      ((r.elite.ranked.head?).map (fun p => p.1)) = true
    · simp [Rosomaxa.add, hc]
    · simp [Rosomaxa.add, hc]
  · cases hph : r.phase <;> simp [Rosomaxa.add, hph]

/-- C3: in the Initial phase, `on_generation` is a no-op while fewer than four
solutions are buffered; with at least four, the first four (in insertion
order) seed a fresh 4-node GSOM, the remaining buffered solutions are stored
into the map with generation stamp 0, and the phase becomes Exploration with
an empty coordinate list. -/
theorem c3_initial_seeding {S : Type} (F : RealFuns) (weightsOf getFitness : S → List ℚ)
    (r : Rosomaxa S) (statistics : HeuristicStatistics) (rnd : ShuffleInputs)
    (buffered : List S) (hph : r.phase = RosomaxaPhases.Initial buffered) :
    (buffered.length < 4 → r.updatePhase F weightsOf getFitness statistics rnd = r) ∧
    (4 ≤ buffered.length →
      (Rosomaxa.createNetwork F weightsOf r.objective r.config (buffered.take 4)).size = 4 ∧
      (r.updatePhase F weightsOf getFitness statistics rnd).phase =
        RosomaxaPhases.Exploration
          ((buffered.drop 4).foldl
            (fun n individual => n.store (IndividualInput.new weightsOf individual) 0)
            (Rosomaxa.createNetwork F weightsOf r.objective r.config (buffered.take 4)))
          [] statistics (Rosomaxa.selectionSizeOf r.config statistics.speed)) := by
  constructor
  · intro hlt
    simp [Rosomaxa.updatePhase, hph, show ¬ 4 ≤ buffered.length by omega]
  · intro hge
    constructor
    · simp only [Rosomaxa.createNetwork, Network.new4, Network.size, Network.seedCoords]
      simp [List.length_zip, List.length_take]
      omega
    · simp [Rosomaxa.updatePhase, hph, hge]

/-- C9: on every `on_generation` call the selection size computed from speed
is `config.selection_size` for `Moderate` and
`max 1 (round(config.selection_size · ratio))` for `Slow(ratio)`, and
whatever phase stores a selection size after the call stores exactly that
value. -/
theorem c9_selection_size_retuning {S : Type} (F : RealFuns)
    (weightsOf getFitness : S → List ℚ) (r : Rosomaxa S)
    (statistics : HeuristicStatistics) (rnd : ShuffleInputs) :
    (Rosomaxa.selectionSizeOf r.config statistics.speed =
      match statistics.speed with
      | HeuristicSpeed.Moderate => r.config.selection_size
      | HeuristicSpeed.Slow ratio =>
        max 1 (rustRoundToNat ((r.config.selection_size : ℚ) * ratio))) ∧
    (match (r.updatePhase F weightsOf getFitness statistics rnd).phase with
      | RosomaxaPhases.Initial _ => True
      | RosomaxaPhases.Exploration _ _ _ n =>
        n = Rosomaxa.selectionSizeOf r.config statistics.speed
      | RosomaxaPhases.Exploitation n =>
        n = Rosomaxa.selectionSizeOf r.config statistics.speed) := by
  constructor
  · exact selectionSizeOf_eq_specForm r.config statistics.speed
  · cases hph : r.phase with
    | Initial buffered =>
      by_cases h4 : 4 ≤ buffered.length
      · simp [Rosomaxa.updatePhase, hph, h4]
      · simp [Rosomaxa.updatePhase, hph, h4]
    | Exploration network coordinates oldStatistics oldSel =>
      by_cases hlt :
        statistics.termination_estimate <
          (match oldStatistics.speed with
            | HeuristicSpeed.Slow ratio => r.config.exploration_ratio * ratio
            | HeuristicSpeed.Moderate => r.config.exploration_ratio)
      · simp [Rosomaxa.updatePhase, hph, hlt]
      · simp [Rosomaxa.updatePhase, hph, hlt]
    | Exploitation oldSel => simp [Rosomaxa.updatePhase, hph]

theorem step_phaseRank_mono {S : Type} (F : RealFuns)
    (weightsOf getFitness : S → List ℚ) (r : Rosomaxa S) (op : RosomaxaOp S) :
    phaseRank r.selectionPhase ≤
      phaseRank (r.step F weightsOf getFitness op).selectionPhase := by
  cases op with
  | add individual =>
    cases hph : r.phase <;>
      simp [Rosomaxa.step, Rosomaxa.add, Rosomaxa.selectionPhase, hph, phaseRank]
  | addAll individuals =>
    cases hph : r.phase <;>
      simp [Rosomaxa.step, Rosomaxa.addAll, Rosomaxa.selectionPhase, hph, phaseRank]
  | onGeneration statistics rnd =>
    cases hph : r.phase with
    | Initial buffered =>
      by_cases h4 : 4 ≤ buffered.length
      · simp [Rosomaxa.step, Rosomaxa.updatePhase, Rosomaxa.selectionPhase, hph, h4, phaseRank]
      · simp [Rosomaxa.step, Rosomaxa.updatePhase, Rosomaxa.selectionPhase, hph, h4, phaseRank]
    | Exploration network coordinates oldStatistics oldSel =>
      by_cases hlt :
        statistics.termination_estimate <
          (match oldStatistics.speed with
            | HeuristicSpeed.Slow ratio => r.config.exploration_ratio * ratio
            | HeuristicSpeed.Moderate => r.config.exploration_ratio)
      · simp [Rosomaxa.step, Rosomaxa.updatePhase, Rosomaxa.selectionPhase, hph, hlt, phaseRank]
      · simp [Rosomaxa.step, Rosomaxa.updatePhase, Rosomaxa.selectionPhase, hph, hlt, phaseRank]
    | Exploitation oldSel =>
      simp [Rosomaxa.step, Rosomaxa.updatePhase, Rosomaxa.selectionPhase, hph, phaseRank]
  | select => exact le_refl _

theorem run_phaseRank_mono {S : Type} (F : RealFuns)
    (weightsOf getFitness : S → List ℚ) (ops : List (RosomaxaOp S)) (r : Rosomaxa S) :
    phaseRank r.selectionPhase ≤
      phaseRank (Rosomaxa.run F weightsOf getFitness r ops).selectionPhase := by
  induction ops generalizing r with
  | nil => exact le_refl _
  | cons op ops ih =>
    exact le_trans (step_phaseRank_mono F weightsOf getFitness r op)
      (ih (r.step F weightsOf getFitness op))

/-- C10: phase progression is one-way — starting from a freshly constructed
population, along any sequence of `add`/`add_all`/`on_generation`/`select`
operations the selection phase rank (Initial 0, Exploration 1,
Exploitation 2) never decreases, so the phase never returns to Initial after
Exploration nor leaves Exploitation. -/
theorem c10_phase_progression_one_way {S : Type} (F : RealFuns)
    (weightsOf getFitness : S → List ℚ) (objective : S → S → Ordering)
    (config : RosomaxaConfig) (r0 : Rosomaxa S)
    (hnew : Rosomaxa.new objective config = Except.ok r0)
    (ops1 ops2 : List (RosomaxaOp S)) :
    phaseRank (Rosomaxa.run F weightsOf getFitness r0 ops1).selectionPhase ≤
      phaseRank (Rosomaxa.run F weightsOf getFitness r0 (ops1 ++ ops2)).selectionPhase := by
  have hsplit :
      Rosomaxa.run F weightsOf getFitness r0 (ops1 ++ ops2) =
        Rosomaxa.run F weightsOf getFitness
          (Rosomaxa.run F weightsOf getFitness r0 ops1) ops2 := by
    simp [Rosomaxa.run, List.foldl_append]
  rw [hsplit]
  exact run_phaseRank_mono F weightsOf getFitness ops2 _

/-- C2: `select()` yields at most the relevant selection size in every phase;
in Exploitation every yielded solution is among the first `selection_size`
elite members; in Exploration the stream is the first `elite_picks` elite
members followed, per coordinate in current order, by up to
`uniform_int(1, node_picks)` members of that node's archive, truncated at the
selection size, with the split `(uniform_int(2,4), 2)` for `S > 6`, `(2,2)`
for `S > 4`, `(2,1)` for `S > 2` and `(1,1)` otherwise. -/
theorem c2_select_bounds_and_composition {S : Type} (r : Rosomaxa S) (eliteRaw : ℕ)
    (nodeRaw : Coordinate → ℕ) :
    match r.phase with
    | RosomaxaPhases.Initial _ =>
      r.select eliteRaw nodeRaw = r.elite.select ∧
      (r.select eliteRaw nodeRaw).length ≤ r.elite.selectionSize
    | RosomaxaPhases.Exploitation n =>
      (r.select eliteRaw nodeRaw).length ≤ n ∧
      r.select eliteRaw nodeRaw = r.elite.select.take n ∧
      ∀ x ∈ r.select eliteRaw nodeRaw, x ∈ r.elite.individuals.take n
    | RosomaxaPhases.Exploration network coordinates _ n =>
      (r.select eliteRaw nodeRaw).length ≤ n ∧
      (2 ≤ (uniformInt 2 4 eliteRaw).toNat ∧ (uniformInt 2 4 eliteRaw).toNat ≤ 4) ∧
      r.select eliteRaw nodeRaw =
        ((r.elite.select.take
            (if 6 < n then (uniformInt 2 4 eliteRaw).toNat
              else if 4 < n then 2 else if 2 < n then 2 else 1)) ++
          (coordinates.map (fun c =>
            ((network.find c.1).map (fun node =>
              node.storage.select.take
                ((uniformInt 1
                    ((if 6 < n then 2 else if 4 < n then 2 else if 2 < n then 1 else 1 : ℕ) : ℤ)
                    (nodeRaw c.1)).toNat))).getD [])).flatten).take n := by
  cases hph : r.phase with
  | Initial buffered =>
    refine ⟨by simp [Rosomaxa.select, hph], ?_⟩
    simp only [Rosomaxa.select, hph, Elitism.select]
    exact le_trans (le_of_eq (List.length_take _ _)) (min_le_left _ _)
  | Exploitation n =>
    refine ⟨?_, by simp [Rosomaxa.select, hph], ?_⟩
    · simp only [Rosomaxa.select, hph]
      exact le_trans (le_of_eq (List.length_take _ _)) (min_le_left _ _)
    · intro x hx
      have hsel : r.select eliteRaw nodeRaw =
          List.take n (List.take r.elite.selectionSize r.elite.individuals) := by
        simp [Rosomaxa.select, hph, Elitism.select]
      rw [hsel, List.take_take] at hx
      have hswap :
          List.take (min n r.elite.selectionSize) r.elite.individuals =
            List.take (min n r.elite.selectionSize) (List.take n r.elite.individuals) := by
        rw [List.take_take]
        congr 1
        omega
      rw [hswap] at hx
      exact List.take_subset _ _ hx
  | Exploration network coordinates oldStatistics n =>
    refine ⟨?_, ⟨?_, ?_⟩, ?_⟩
    · simp only [Rosomaxa.select, hph]
      exact le_trans (le_of_eq (List.length_take _ _)) (min_le_left _ _)
    · have h3 : ((4 : ℤ) + 1 - 2).toNat = 3 := by decide
      simp only [uniformInt, h3]
      omega
    · have h3 : ((4 : ℤ) + 1 - 2).toNat = 3 := by decide
      simp only [uniformInt, h3]
      omega
    · by_cases h6 : 6 < n
      · simp [Rosomaxa.select, hph, h6]
      · by_cases h4 : 4 < n
        · simp [Rosomaxa.select, hph, h6, h4]
        · by_cases h2 : 2 < n
          · simp [Rosomaxa.select, hph, h6, h4, h2]
          · simp [Rosomaxa.select, hph, h6, h4, h2]

theorem fillPopulations_perm {S : Type} (F : RealFuns) (getFitness : S → List ℚ)
    (net : Network S) (bestFitness : List ℚ) (statistics : HeuristicStatistics)
    (rnd : ShuffleInputs) :
    List.Perm (Rosomaxa.fillPopulations F getFitness net bestFitness statistics rnd)
      (net.nodes.filterMap (fun p =>
        (p.2.storage.select.head?).map (fun individual =>
          (p.1, relativeDistance F.sqrt bestFitness (getFitness individual),
            p.2.getLastHits net.getCurrentTime)))) := by
  simp only [Rosomaxa.fillPopulations]
  split_ifs with h hcoin
  · exact (fyShufflePart_perm _ _ _).trans (sortedBy_perm _ _)
  · exact (fyShufflePart_perm _ _ _).trans (sortedBy_perm _ _)
  · exact fyPermute_perm _ _

/-- C7: after an `on_generation` call that keeps the population in
Exploration, the coordinate list is, up to the shuffle's reordering, exactly
one entry per GSOM node whose local archive yields a member — so its length
equals the number of such non-empty nodes — and each entry is the node's
coordinate, the relative distance from the best elite fitness to the node's
best local fitness, and the node's last-hit age (current time minus the
last-hit stamp). -/
theorem c7_coordinate_refill {S : Type} (F : RealFuns)
    (weightsOf getFitness : S → List ℚ) (r : Rosomaxa S)
    (statistics : HeuristicStatistics) (rnd : ShuffleInputs)
    (network : Network S) (coordinates : List (Coordinate × ℚ × ℕ))
    (oldStatistics : HeuristicStatistics) (oldSel : ℕ) (best : S)
    (hph : r.phase = RosomaxaPhases.Exploration network coordinates oldStatistics oldSel)
    (hbest : r.elite.select.head? = some best)
    (hstay : statistics.termination_estimate <
      (match oldStatistics.speed with
        | HeuristicSpeed.Slow ratio => r.config.exploration_ratio * ratio
        | HeuristicSpeed.Moderate => r.config.exploration_ratio)) :
    ∃ network' coordinates',
      (r.updatePhase F weightsOf getFitness statistics rnd).phase =
        RosomaxaPhases.Exploration network' coordinates' statistics
          (Rosomaxa.selectionSizeOf r.config statistics.speed) ∧
      List.Perm coordinates'
        (network'.nodes.filterMap (fun p =>
          (p.2.storage.select.head?).map (fun individual =>
            (p.1, relativeDistance F.sqrt (getFitness best) (getFitness individual),
              network'.getCurrentTime - p.2.lastHit)))) ∧
      coordinates'.length =
        network'.nodes.countP (fun p => (p.2.storage.select.head?).isSome) := by
  have hphase :
      (r.updatePhase F weightsOf getFitness statistics rnd).phase =
        RosomaxaPhases.Exploration
          (Rosomaxa.optimizeNetwork F weightsOf getFitness network statistics
            (getFitness best) r.config.rebalance_memory r.config.rebalance_count)
          (Rosomaxa.fillPopulations F getFitness
            (Rosomaxa.optimizeNetwork F weightsOf getFitness network statistics
              (getFitness best) r.config.rebalance_memory r.config.rebalance_count)
            (getFitness best) statistics rnd)
          statistics (Rosomaxa.selectionSizeOf r.config statistics.speed) := by
    simp [Rosomaxa.updatePhase, hph, hstay, hbest]
  refine ⟨_, _, hphase, ?_, ?_⟩
  · exact fillPopulations_perm F getFitness _ (getFitness best) statistics rnd
  · rw [(fillPopulations_perm F getFitness _ (getFitness best) statistics rnd).length_eq,
      length_filterMap_eq_countP]
    apply List.countP_congr
    intro p _
    cases h : p.2.storage.select.head? <;> simp [h]

/-- C8: during coordinate refill the shuffle amount is
`round(len · ratio)` with the ratio given by the improvement-rate cases; when
it differs from the length, the list is sorted by distance or last-hit
ascending according to a coin flip and only its first `shuffle_amount`
positions are shuffled (later positions keep their sorted values); when it
equals the length the whole list is shuffled; the multiset of entries is
always preserved. -/
theorem c8_coordinate_shuffle {S : Type} (F : RealFuns) (getFitness : S → List ℚ)
    (network : Network S) (bestFitness : List ℚ)
    (statistics : HeuristicStatistics) (rnd : ShuffleInputs)
    (base sorted : List (Coordinate × ℚ × ℕ)) (amount : ℕ)
    (hbase : base = network.nodes.filterMap (fun p =>
      (p.2.storage.select.head?).map (fun individual =>
        (p.1, relativeDistance F.sqrt bestFitness (getFitness individual),
          p.2.getLastHits network.getCurrentTime))))
    (hamount : amount = Rosomaxa.calculateShuffleAmount F statistics base.length)
    (hsorted : sorted =
      (if rnd.coin then sortedBy (fun a b => compare_floats a.2.1 b.2.1) base
        else sortedBy (fun a b => compare a.2.2 b.2.2) base)) :
    (amount = rustRoundToNat ((base.length : ℚ) *
      (if 1/2 < statistics.improvement_1000_ratio then
        rustClamp
          (1/2 * (1 - 1 / (1 + F.exp (-10 * (statistics.termination_estimate - 1/2)))))
          (1/10) (1/2)
      else if 1/5 < statistics.improvement_1000_ratio then 1/2 else 1))) ∧
    amount ≤ base.length ∧
    (if amount = base.length then
        Rosomaxa.fillPopulations F getFitness network bestFitness statistics rnd =
          fyPermute rnd.fullDraws base
      else
        Rosomaxa.fillPopulations F getFitness network bestFitness statistics rnd =
            fyShufflePart rnd.partDraws sorted amount ∧
          (Rosomaxa.fillPopulations F getFitness network bestFitness statistics rnd).drop
              amount =
            sorted.drop amount) ∧
    List.Perm (Rosomaxa.fillPopulations F getFitness network bestFitness statistics rnd)
      base := by
  have hsortlen : sorted.length = base.length := by
    rw [hsorted]
    split_ifs
    · exact (sortedBy_perm _ _).length_eq
    · exact (sortedBy_perm _ _).length_eq
  refine ⟨by rw [hamount]; rfl, by rw [hamount]; exact calculateShuffleAmount_le _ _ _, ?_, ?_⟩
  · split_ifs with h
    · simp only [Rosomaxa.fillPopulations, ← hbase, ← hamount]
      rw [if_neg (by omega)]
    · constructor
      · simp only [Rosomaxa.fillPopulations, ← hbase, ← hamount, ← hsorted]
        rw [if_pos h]
      · have hres :
            Rosomaxa.fillPopulations F getFitness network bestFitness statistics rnd =
              fyShufflePart rnd.partDraws sorted amount := by
          simp only [Rosomaxa.fillPopulations, ← hbase, ← hamount, ← hsorted]
          rw [if_pos h]
        rw [hres]
        apply fyShufflePart_drop
        rw [hsortlen, hamount]
        exact calculateShuffleAmount_le _ _ _
  · rw [hbase]
    exact fillPopulations_perm F getFitness network bestFitness statistics rnd

/-- C4 (amended): in Exploration, `on_generation(stats)` computes the
effective exploration ratio from the PREVIOUSLY STORED statistics' speed (not
the incoming `stats.speed`): `config.exploration_ratio · ratio` for
`Slow(ratio)` and `config.exploration_ratio` for `Moderate`; the phase
transitions to Exploitation iff `stats.termination_estimate` reaches that
ratio, carrying the selection size freshly computed from the incoming
`stats.speed`; otherwise it stays Exploration with the stored statistics and
selection size updated to the new values. -/
theorem c4_exploration_to_exploitation {S : Type} (F : RealFuns)
    (weightsOf getFitness : S → List ℚ) (r : Rosomaxa S)
    (statistics : HeuristicStatistics) (rnd : ShuffleInputs)
    (network : Network S) (coordinates : List (Coordinate × ℚ × ℕ))
    (oldStatistics : HeuristicStatistics) (oldSel : ℕ)
    (hph : r.phase = RosomaxaPhases.Exploration network coordinates oldStatistics oldSel) :
    ((r.updatePhase F weightsOf getFitness statistics rnd).selectionPhase =
        SelectionPhase.Exploitation ↔
      (match oldStatistics.speed with
        | HeuristicSpeed.Slow ratio => r.config.exploration_ratio * ratio
        | HeuristicSpeed.Moderate => r.config.exploration_ratio) ≤
        statistics.termination_estimate) ∧
    ((match oldStatistics.speed with
        | HeuristicSpeed.Slow ratio => r.config.exploration_ratio * ratio
        | HeuristicSpeed.Moderate => r.config.exploration_ratio) ≤
        statistics.termination_estimate →
      (r.updatePhase F weightsOf getFitness statistics rnd).phase =
        RosomaxaPhases.Exploitation (Rosomaxa.selectionSizeOf r.config statistics.speed)) ∧
    (statistics.termination_estimate <
        (match oldStatistics.speed with
          | HeuristicSpeed.Slow ratio => r.config.exploration_ratio * ratio
          | HeuristicSpeed.Moderate => r.config.exploration_ratio) →
      ∃ network' coordinates',
        (r.updatePhase F weightsOf getFitness statistics rnd).phase =
          RosomaxaPhases.Exploration network' coordinates' statistics
            (Rosomaxa.selectionSizeOf r.config statistics.speed)) := by
  by_cases hlt :
    statistics.termination_estimate <
      (match oldStatistics.speed with
        | HeuristicSpeed.Slow ratio => r.config.exploration_ratio * ratio
        | HeuristicSpeed.Moderate => r.config.exploration_ratio)
  · refine ⟨?_, ?_, ?_⟩
    · have hp : (r.updatePhase F weightsOf getFitness statistics rnd).selectionPhase =
          SelectionPhase.Exploration := by
        simp [Rosomaxa.updatePhase, hph, hlt, Rosomaxa.selectionPhase]
      rw [hp]
      exact iff_of_false (by simp) (not_le.mpr hlt)
    · intro hge
      exact absurd hge (not_le.mpr hlt)
    · intro _
      simp only [Rosomaxa.updatePhase, hph]
      rw [if_pos hlt]
      exact ⟨_, _, rfl⟩
  · refine ⟨?_, ?_, ?_⟩
    · have hp : (r.updatePhase F weightsOf getFitness statistics rnd).selectionPhase =
          SelectionPhase.Exploitation := by
        simp [Rosomaxa.updatePhase, hph, hlt, Rosomaxa.selectionPhase]
      exact iff_of_true hp (not_lt.mp hlt)
    · intro _
      simp [Rosomaxa.updatePhase, hph, hlt]
    · intro hlt2
      exact absurd hlt2 hlt

/-- C4 counterexample: with stored Exploration statistics of speed
`Slow(1/2)` and incoming statistics of speed `Moderate` with termination
estimate `3/5`, the code transitions to Exploitation (it uses the stored
speed, effective ratio `9/20`), although the claim's effective ratio from the
incoming `stats.speed` is `9/10 > 3/5`, under which the claim predicts the
phase stays Exploration. -/
theorem c4_counterexample :
    (rExplSlow.updatePhase modelFuns qWeights qFitness statsIncoming rndW).selectionPhase =
      SelectionPhase.Exploitation ∧
    statsIncoming.termination_estimate <
      (match statsIncoming.speed with
        | HeuristicSpeed.Slow ratio => rExplSlow.config.exploration_ratio * ratio
        | HeuristicSpeed.Moderate => rExplSlow.config.exploration_ratio) := by
  constructor
  · norm_num [Rosomaxa.updatePhase, Rosomaxa.selectionPhase, rExplSlow, statsIncoming,
      statsStoredSlow, cfgW]
  · norm_num [statsIncoming, rExplSlow, cfgW]

/-- C5 (amended): `optimize_network` leaves the network entirely unchanged
whenever the generation is 0 or the node count is at most `keep_size`, where
`keep_size` is the improvement-rate-based multiple of `rebalance_memory`
TRUNCATED toward zero (Rust `as usize`), not rounded. -/
theorem c5_optimize_network_guard {S : Type} (F : RealFuns)
    (weightsOf getFitness : S → List ℚ) (network : Network S)
    (statistics : HeuristicStatistics) (bestFitness : List ℚ) (R C : ℕ)
    (h : statistics.generation = 0 ∨ network.size ≤ Rosomaxa.keepSizeOf F statistics R) :
    Rosomaxa.optimizeNetwork F weightsOf getFitness network statistics bestFitness R C =
      network := by
  simp only [Rosomaxa.optimizeNetwork]
  rw [if_pos h]

theorem c5_optimize_network_guard_witness :
    (statsGen0.generation = 0 ∨ cnet2.size ≤ Rosomaxa.keepSizeOf modelFuns statsGen0 1) ∧
    Rosomaxa.optimizeNetwork modelFuns qWeights qFitness cnet2 statsGen0 [7] 1 1 = cnet2 :=
  ⟨Or.inl rfl,
    c5_optimize_network_guard modelFuns qWeights qFitness cnet2 statsGen0 [7] 1 1
      (Or.inl rfl)⟩

/-- C5 counterexample: at generation 1 with improvement rate `3/10`,
termination estimate `1/2` and `rebalance_memory = 1`, the sigmoid keep size
is `3/2`; the claim's ROUNDED value is 2, so for the two-node network the
claim predicts no change (2 ≤ 2), but the code truncates to 1, passes the
guard, and retrains the network down to zero nodes. -/
theorem store_nodes_empty {S : Type} (net : Network S) (input : IndividualInput S)
    (generation : ℕ) (h : net.nodes = []) : net.store input generation = net := by
  simp [Network.store, Network.findBmu, h]

theorem foldl_store_nodes_empty {S : Type} (weightsOf : S → List ℚ) (net : Network S)
    (data : List S) (h : net.nodes = []) :
    data.foldl (fun m s => m.store { weights := weightsOf s, individual := s } m.time) net =
      net := by
  induction data generalizing net with
  | nil => rfl
  | cons x xs ih =>
    rw [List.foldl_cons, store_nodes_empty _ _ _ h]
    exact ih net h

theorem retrainLoop_nodes_empty {S : Type} (weightsOf : S → List ℚ) (k : ℕ)
    (net : Network S) (extra : List S) (h : net.nodes = []) :
    Network.retrainLoop weightsOf k net extra = net := by
  induction k generalizing net extra with
  | zero => rfl
  | succ k ih =>
    obtain ⟨nodes, t, gt, lr, df, hie, rm, st⟩ := net
    simp only at h
    subst h
    simp only [Network.retrainLoop, Network.drainAll, List.map_nil, List.flatten_nil,
      List.nil_append]
    rw [foldl_store_nodes_empty weightsOf _ _ rfl]
    exact ih _ _ rfl

theorem retrain_no_kept {S : Type} (weightsOf : S → List ℚ) (net : Network S) (count : ℕ)
    (keep : Node S → Bool) (h : net.nodes.filter (fun p => keep p.2) = [])
    (hie : net.hasInitialError = true) :
    net.retrain weightsOf count keep = { net with nodes := [] } := by
  simp only [Network.retrain, h]
  rw [retrainLoop_nodes_empty _ _ _ _ rfl]
  simp [hie]

theorem keepSizeOf_statsHalf : Rosomaxa.keepSizeOf modelFuns statsHalf 1 = 1 := by
  norm_num [Rosomaxa.keepSizeOf, statsHalf, modelFuns, rustClamp, rustToUsize]

theorem keepSizeOf_statsMid : Rosomaxa.keepSizeOf modelFuns statsMid 1 = 2 := by
  norm_num [Rosomaxa.keepSizeOf, statsMid, modelFuns, rustClamp, rustToUsize]
  omega

theorem nodeDistanceOf_seven :
    Rosomaxa.nodeDistanceOf modelFuns qFitness [7] (nodeOf 7 [7] 1) = some 0 := by
  norm_num [Rosomaxa.nodeDistanceOf, nodeOf, Elitism.select, qFitness, relativeDistance,
    modelFuns, f64Eps]

theorem nodeDistanceOf_eight :
    Rosomaxa.nodeDistanceOf modelFuns qFitness [7] (nodeOf 8 [8] 2) = some (1/64) := by
  norm_num [Rosomaxa.nodeDistanceOf, nodeOf, Elitism.select, qFitness, relativeDistance,
    modelFuns, f64Eps]

theorem nodeDistanceOf_twelve :
    Rosomaxa.nodeDistanceOf modelFuns qFitness [7] (nodeOf 12 [12] 1) = some (25/144) := by
  norm_num [Rosomaxa.nodeDistanceOf, nodeOf, Elitism.select, qFitness, relativeDistance,
    modelFuns, f64Eps]

theorem c5_counterexample :
    statsHalf.generation ≠ 0 ∧
    keepSizeRoundedSpec modelFuns statsHalf 1 = 2 ∧
    cnet2.size = 2 ∧
    Rosomaxa.keepSizeOf modelFuns statsHalf 1 = 1 ∧
    (Rosomaxa.optimizeNetwork modelFuns qWeights qFitness cnet2 statsHalf [7] 1 1).size = 0 ∧
    Rosomaxa.optimizeNetwork modelFuns qWeights qFitness cnet2 statsHalf [7] 1 1 ≠ cnet2 := by
  have hfm : (cnet2.nodes.map (fun p => p.2)).filterMap
      (Rosomaxa.nodeDistanceOf modelFuns qFitness [7]) = [0, 25/144] := by
    simp [cnet2, List.filterMap_cons, nodeDistanceOf_seven, nodeDistanceOf_twelve]
  have hsort : sortedBy (fun a b => compare_floats b a) [(0 : ℚ), 25/144] = [25/144, 0] := by
    norm_num [sortedBy, insertSortedBy, compare_floats]
  have hres : Rosomaxa.optimizeNetwork modelFuns qWeights qFitness cnet2 statsHalf [7] 1 1 =
      { cnet2 with nodes := [] } := by
    simp only [Rosomaxa.optimizeNetwork, keepSizeOf_statsHalf]
    rw [if_neg (by norm_num [statsHalf, cnet2, Network.size])]
    rw [hfm, hsort]
    norm_num [List.get?]
    exact retrain_no_kept qWeights cnet2 1 _
      (by norm_num [cnet2, List.filter_cons, nodeDistanceOf_seven, nodeDistanceOf_twelve]) rfl
  refine ⟨by simp [statsHalf], ?_, rfl, keepSizeOf_statsHalf, ?_, ?_⟩
  · norm_num [keepSizeRoundedSpec, statsHalf, modelFuns, rustClamp, rustRoundToNat, rustRound]
    omega
  · rw [hres]
    rfl
  · rw [hres]
    intro h
    have h2 := congrArg (fun n => n.nodes.length) h
    simp [cnet2] at h2

/-- C6: past its guard (generation > 0, network size > keep size, and the
percentile index in bounds), `optimize_network` collects the non-empty nodes'
relative distances to the best fitness, sorts them descending, takes the
percentile index `len − keep_size` when `len > keep_size` and `⌊0.75·len⌋`
otherwise, and calls `retrain(rebalance_count, keep_predicate)` where the
predicate keeps exactly the nodes having a distance strictly less than
`distances[percentile_idx]` (nodes without a distance are never kept). -/
theorem c6_optimize_network_retrain {S : Type} (F : RealFuns)
    (weightsOf getFitness : S → List ℚ) (network : Network S)
    (statistics : HeuristicStatistics) (bestFitness : List ℚ) (R C : ℕ)
    (distances : List ℚ) (percentileIdx : ℕ)
    (hD : distances = sortedBy (fun a b => compare_floats b a)
      ((network.nodes.map (fun p => p.2)).filterMap
        (Rosomaxa.nodeDistanceOf F getFitness bestFitness)))
    (hP : percentileIdx =
      (if Rosomaxa.keepSizeOf F statistics R < distances.length then
        distances.length - Rosomaxa.keepSizeOf F statistics R
      else 3 * distances.length / 4))
    (hgen : statistics.generation ≠ 0)
    (hsize : Rosomaxa.keepSizeOf F statistics R < network.size)
    (hidx : percentileIdx < distances.length) :
    Rosomaxa.optimizeNetwork F weightsOf getFitness network statistics bestFitness R C =
      network.retrain weightsOf C
        (fun node =>
          match Rosomaxa.nodeDistanceOf F getFitness bestFitness node with
          | some d => decide (d < distances.getD percentileIdx 0)
          | none => false) := by
  simp only [Rosomaxa.optimizeNetwork]
  rw [if_neg (by push_neg; exact ⟨hgen, by omega⟩)]
  rw [← hD]
  have hPc :
      (if Rosomaxa.keepSizeOf F statistics R < distances.length then
        distances.length - Rosomaxa.keepSizeOf F statistics R
      else rustToUsize ((distances.length : ℚ) * (3/4))) = percentileIdx := by
    rw [hP]
    split_ifs with hcase
    · rfl
    · exact rustToUsize_three_quarters distances.length
  rw [hPc]
  cases hq : distances.get? percentileIdx with
  | none =>
    have hnone := List.get?_eq_none.mp hq
    omega
  | some x =>
    have hq2 : distances[percentileIdx]? = some x := by
      rw [← List.get?_eq_getElem?]
      exact hq
    have hgd : distances.getD percentileIdx 0 = x := by
      simp [List.getD, hq2]
    rw [hgd]
    show network.retrain weightsOf C _ = network.retrain weightsOf C _
    congr 1
    funext node
    cases hnd : Rosomaxa.nodeDistanceOf F getFitness bestFitness node <;> simp [hnd]

theorem c6_optimize_network_retrain_witness :
    (statsMid.generation ≠ 0 ∧ Rosomaxa.keepSizeOf modelFuns statsMid 1 < cnet3.size) ∧
    Rosomaxa.optimizeNetwork modelFuns qWeights qFitness cnet3 statsMid [7] 1 1 =
      cnet3.retrain qWeights 1
        (fun node =>
          match Rosomaxa.nodeDistanceOf modelFuns qFitness [7] node with
          | some d =>
            decide (d <
              (sortedBy (fun a b => compare_floats b a)
                ((cnet3.nodes.map (fun p => p.2)).filterMap
                  (Rosomaxa.nodeDistanceOf modelFuns qFitness [7]))).getD
                (if Rosomaxa.keepSizeOf modelFuns statsMid 1 <
                    (sortedBy (fun a b => compare_floats b a)
                      ((cnet3.nodes.map (fun p => p.2)).filterMap
                        (Rosomaxa.nodeDistanceOf modelFuns qFitness [7]))).length then
                  (sortedBy (fun a b => compare_floats b a)
                    ((cnet3.nodes.map (fun p => p.2)).filterMap
                      (Rosomaxa.nodeDistanceOf modelFuns qFitness [7]))).length -
                    Rosomaxa.keepSizeOf modelFuns statsMid 1
                else
                  3 * (sortedBy (fun a b => compare_floats b a)
                    ((cnet3.nodes.map (fun p => p.2)).filterMap
                      (Rosomaxa.nodeDistanceOf modelFuns qFitness [7]))).length / 4)
                0)
          | none => false) := by
  have hlenD : (sortedBy (fun a b => compare_floats b a)
      ((cnet3.nodes.map (fun p => p.2)).filterMap
        (Rosomaxa.nodeDistanceOf modelFuns qFitness [7]))).length = 3 := by
    rw [(sortedBy_perm _ _).length_eq]
    simp [cnet3, List.filterMap_cons, nodeDistanceOf_seven, nodeDistanceOf_eight,
      nodeDistanceOf_twelve]
  have hsz : Rosomaxa.keepSizeOf modelFuns statsMid 1 < cnet3.size := by
    rw [keepSizeOf_statsMid]
    norm_num [cnet3, Network.size]
  refine ⟨⟨by simp [statsMid], hsz⟩, ?_⟩
  exact c6_optimize_network_retrain modelFuns qWeights qFitness cnet3 statsMid [7] 1 1 _ _
    rfl rfl (by simp [statsMid]) hsz (by rw [hlenD, keepSizeOf_statsMid]; norm_num)

theorem c3_initial_seeding_witness :
    ((4 : ℕ) ≤ ([10, 8, 12, 7] : List ℚ).length) ∧
    ((Rosomaxa.createNetwork modelFuns qWeights rInit4.objective rInit4.config
        (([10, 8, 12, 7] : List ℚ).take 4)).size = 4 ∧
      (rInit4.updatePhase modelFuns qWeights qFitness statsEarly rndW).phase =
        RosomaxaPhases.Exploration
          ((([10, 8, 12, 7] : List ℚ).drop 4).foldl
            (fun n individual => n.store (IndividualInput.new qWeights individual) 0)
            (Rosomaxa.createNetwork modelFuns qWeights rInit4.objective rInit4.config
              (([10, 8, 12, 7] : List ℚ).take 4)))
          [] statsEarly (Rosomaxa.selectionSizeOf rInit4.config statsEarly.speed)) :=
  ⟨by norm_num,
    (c3_initial_seeding modelFuns qWeights qFitness rInit4 statsEarly rndW
        [10, 8, 12, 7] rfl).2 (by norm_num)⟩

theorem c4_exploration_to_exploitation_witness :
    (match statsStoredSlow.speed with
      | HeuristicSpeed.Slow ratio => rExplSlow.config.exploration_ratio * ratio
      | HeuristicSpeed.Moderate => rExplSlow.config.exploration_ratio) ≤
      statsIncoming.termination_estimate ∧
    (rExplSlow.updatePhase modelFuns qWeights qFitness statsIncoming rndW).selectionPhase =
      SelectionPhase.Exploitation := by
  have heff :
      (match statsStoredSlow.speed with
        | HeuristicSpeed.Slow ratio => rExplSlow.config.exploration_ratio * ratio
        | HeuristicSpeed.Moderate => rExplSlow.config.exploration_ratio) ≤
        statsIncoming.termination_estimate := by
    norm_num [statsStoredSlow, statsIncoming, rExplSlow, cfgW]
  exact ⟨heff,
    ((c4_exploration_to_exploitation modelFuns qWeights qFitness rExplSlow statsIncoming
        rndW cnet2 [] statsStoredSlow 4 rfl).1).mpr heff⟩

theorem c7_coordinate_refill_witness :
    (rExplMod.elite.select.head? = some 7 ∧
      statsEarly.termination_estimate <
        (match statsOldMod.speed with
          | HeuristicSpeed.Slow ratio => rExplMod.config.exploration_ratio * ratio
          | HeuristicSpeed.Moderate => rExplMod.config.exploration_ratio)) ∧
    ∃ network' coordinates',
      (rExplMod.updatePhase modelFuns qWeights qFitness statsEarly rndW).phase =
        RosomaxaPhases.Exploration network' coordinates' statsEarly
          (Rosomaxa.selectionSizeOf rExplMod.config statsEarly.speed) ∧
      List.Perm coordinates'
        (network'.nodes.filterMap (fun p =>
          (p.2.storage.select.head?).map (fun individual =>
            (p.1, relativeDistance modelFuns.sqrt (qFitness 7) (qFitness individual),
              network'.getCurrentTime - p.2.lastHit)))) ∧
      coordinates'.length =
        network'.nodes.countP (fun p => (p.2.storage.select.head?).isSome) := by
  have hstay : statsEarly.termination_estimate <
      (match statsOldMod.speed with
        | HeuristicSpeed.Slow ratio => rExplMod.config.exploration_ratio * ratio
        | HeuristicSpeed.Moderate => rExplMod.config.exploration_ratio) := by
    norm_num [statsEarly, statsOldMod, rExplMod, cfgW]
  exact ⟨⟨rfl, hstay⟩,
    c7_coordinate_refill modelFuns qWeights qFitness rExplMod statsEarly rndW cnet2 []
      statsOldMod 4 7 rfl rfl hstay⟩

theorem c8_coordinate_shuffle_witness :
    List.Perm (Rosomaxa.fillPopulations modelFuns qFitness cnet2 [7] statsHalf rndW)
      (cnet2.nodes.filterMap (fun p =>
        (p.2.storage.select.head?).map (fun individual =>
          (p.1, relativeDistance modelFuns.sqrt [7] (qFitness individual),
            p.2.getLastHits cnet2.getCurrentTime)))) :=
  (c8_coordinate_shuffle modelFuns qFitness cnet2 [7] statsHalf rndW _ _ _
    rfl rfl rfl).2.2.2

theorem c10_phase_progression_one_way_witness :
    Rosomaxa.new qOrder cfgW = Except.ok
      { objective := qOrder, config := cfgW,
        elite := Elitism.new qOrder cfgW.elite_size cfgW.selection_size,
        phase := RosomaxaPhases.Initial ([] : List ℚ) } ∧
    phaseRank (Rosomaxa.run modelFuns qWeights qFitness
        { objective := qOrder, config := cfgW,
          elite := Elitism.new qOrder cfgW.elite_size cfgW.selection_size,
          phase := RosomaxaPhases.Initial ([] : List ℚ) }
        [RosomaxaOp.add 5]).selectionPhase ≤
      phaseRank (Rosomaxa.run modelFuns qWeights qFitness
        { objective := qOrder, config := cfgW,
          elite := Elitism.new qOrder cfgW.elite_size cfgW.selection_size,
          phase := RosomaxaPhases.Initial ([] : List ℚ) }
        ([RosomaxaOp.add 5] ++ [RosomaxaOp.select])).selectionPhase :=
  ⟨rfl,
    c10_phase_progression_one_way modelFuns qWeights qFitness qOrder cfgW _ rfl
      [RosomaxaOp.add 5] [RosomaxaOp.select]⟩
